import Mathlib

/-!
Verification development for the radiko-tui shared-stream relay server.

The definitions below are a shallow embedding of the Go source:
`server` package (StreamManager / StationStream / PCMStationStream,
src/unnamed/part_005) and the client-side `player` package
(HTTPPlayer, src/unnamed/part_003).  Byte values are modelled as `Nat`,
byte buffers as `List Nat`, Go maps keyed by unique client ids as lists,
and the float64 volume as `ℚ` (only comparisons, copies and exact
arithmetic on it matter for the claims below).
-/

namespace Radiko

/-- State of one `StationStream` / `PCMStationStream` object (they are
field-for-field identical in the source).  `clients` is the key set of the
`clients` map; `handleSet` models `graceTimer != nil`; `armed` means the
timer is counting down and will expire unless stopped; `pending` means the
timer expired and its callback has not run yet; `procLive` means the ffmpeg
process of this stream object is alive. -/
structure SStream where
  running : Bool
  clients : List String
  handleSet : Bool
  armed : Bool
  pending : Bool
  procLive : Bool
deriving DecidableEq, Repr

/-- `startGracePeriod` (part_005, lines 531-551): if `graceTimer != nil` it
returns immediately, otherwise it arms a fresh timer. -/
def startGrace (s : SStream) : SStream :=
  if s.handleSet then s
  else { s with handleSet := true, armed := true }

/-- `CancelGracePeriod` (part_005, lines 554-563): if `graceTimer != nil` it
stops the timer and clears the handle; an already-expired callback is not
affected (`pending` unchanged).  If the handle is nil it does nothing. -/
def cancelGrace (s : SStream) : SStream :=
  if s.handleSet then { s with handleSet := false, armed := false }
  else s

/-- Effect of `Stop` (part_005, lines 566-581) on the stream object itself:
the process context is cancelled (process killed) and `running` cleared. -/
def stopStream (s : SStream) : SStream :=
  { s with running := false, procLive := false }

/-- Body of the grace-timer callback (part_005, lines 541-550): read the
client count; stop the stream exactly when it is zero.  The returned `Bool`
records whether the stream was stopped. -/
def graceTimerFire (s : SStream) : SStream × Bool :=
  if s.clients.length = 0 then (stopStream s, true) else (s, false)

/-- A freshly constructed stream as produced by a successful
`NewStationStream` + `startFFmpeg` (part_005, lines 339-353, 392-393):
no clients, no grace timer, `running = true`, live process. -/
def freshStream : SStream :=
  ⟨true, [], false, false, false, true⟩

/-- Effect of `removeClient` (part_005, lines 516-528) on the stream object:
delete the client from the map; if the count dropped to zero, arm the grace
period. -/
def removeClientStream (s : SStream) (clientID : String) : SStream :=
  let s1 := { s with clients := s.clients.erase clientID }
  if s1.clients.length = 0 then startGrace s1 else s1

/-! ## PCM frame aligner (part_005, `PCMStationStream.readAndBroadcast`,
lines 774-841) -/

/-- PCM frame size: 2 bytes per sample × 2 channels. -/
def frameSize : Nat := 4

/-- One iteration of the PCM read loop for a read returning `readData`
(the `n > 0` body, lines 783-825): prepend the residue, cut at the largest
multiple of `frameSize`, keep the incomplete tail as the new residue, and
push the aligned part (if non-empty) to the broadcast channel.  Returns the
new residue and the chunk pushed, if any. -/
def pcmStep (residue readData : List Nat) : List Nat × Option (List Nat) :=
  if readData.length = 0 then (residue, none)
  else
    let dataToSend := residue ++ readData
    let alignedLen := dataToSend.length / frameSize * frameSize
    let newResidue := dataToSend.drop alignedLen
    if 0 < alignedLen then (newResidue, some (dataToSend.take alignedLen))
    else (newResidue, none)

/-- The PCM read loop over a whole sequence of reads: final residue and the
list of chunks pushed to the broadcast channel, in order. -/
def pcmRun (residue : List Nat) : List (List Nat) → List Nat × List (List Nat)
  | [] => (residue, [])
  | r :: rs =>
    match pcmStep residue r with
    | (res1, none) => pcmRun res1 rs
    | (res1, some ch) =>
      let rest := pcmRun res1 rs
      (rest.1, ch :: rest.2)

/-! ## Bounded broadcast queue (part_005, lines 430-441 and 813-823) -/

/-- The buffered broadcast channel: fixed capacity, FIFO, head = oldest. -/
structure BroadcastChan where
  capacity : Nat
  buffer : List (List Nat)
deriving DecidableEq, Repr

/-- The producer's non-blocking send (part_005, lines 431-441): if the
channel has room, enqueue; otherwise receive (and discard) the oldest
queued chunk — a no-op if the channel drained meanwhile — and then enqueue.
The producer is the channel's only sender, so sequentially the final send
always finds room.  Total function: the producer never blocks. -/
def BroadcastChan.push (q : BroadcastChan) (data : List Nat) : BroadcastChan :=
  if q.buffer.length < q.capacity then { q with buffer := q.buffer ++ [data] }
  else { q with buffer := q.buffer.tail ++ [data] }

/-! ## Registry transition system for one station
(`StreamManager`, part_005, lines 200-278; identical for
`PCMStreamManager`, lines 588-645).

Different stations share no state, so the system is modelled per station.
`streams` collects every stream object ever constructed for the station
(index = identity of the object); the registry map entry for the station is
`registry` (the index of the registered object, or `none`).  Each
constructor of `Step` is one lock-protected critical section of the source.
The `strict` flag selects a restricted system: when it is `true`, the
grace-timer callback of a stream that is no longer the registered entry is
not allowed to perform its stop/removal (the behaviour an identity check in
`removeStream` would give); `strict = false` is the source's behaviour. -/
structure SysState where
  streams : List SStream
  registry : Option Nat
deriving DecidableEq, Repr

/-- One atomic transition of the per-station system.  Constructors:
* `reuse`: `getOrCreateStream` finds a registered running stream (lines
  251-257): cancels its grace timer and returns it.
* `spawnNew` / `spawnReplace`: `getOrCreateStream` constructs a fresh
  stream (lines 260-269) when the entry is absent / present but not
  running (in the latter case the old entry's timer was cancelled first),
  and registers it under the station key.
* `createFailNone` / `createFailSome`: the construction attempt failed;
  nothing is registered (the existing entry's timer was still cancelled).
* `addClient`: `AddClient` registers a session (lines 496-499).
* `removeClient`: `removeClient` deletes a session and arms the grace
  period on the transition to zero (lines 516-528).
* `procExit`: the producer loop ends (EOF or read error, lines 444-457):
  the process is gone and `running` is cleared.
* `expire`: the armed timer expires; its callback becomes pending.
* `fireKeep` / `fireStop`: the pending callback runs (lines 541-550); with
  zero clients it stops the stream and `removeStream` (lines 273-278)
  deletes the station's map entry — whichever stream that entry holds. -/
inductive Step : Bool → SysState → SysState → Prop
  | reuse (strict : Bool) (st : SysState) (i : Nat) (s : SStream)
      (hreg : st.registry = some i) (hs : st.streams[i]? = some s)
      (hrun : s.running = true) :
      Step strict st ⟨st.streams.set i (cancelGrace s), some i⟩
  | spawnNew (strict : Bool) (st : SysState)
      (hreg : st.registry = none) :
      Step strict st ⟨st.streams ++ [freshStream], some st.streams.length⟩
  | spawnReplace (strict : Bool) (st : SysState) (i : Nat) (s : SStream)
      (hreg : st.registry = some i) (hs : st.streams[i]? = some s)
      (hrun : s.running = false) :
      Step strict st
        ⟨st.streams.set i (cancelGrace s) ++ [freshStream], some st.streams.length⟩
  | createFailNone (strict : Bool) (st : SysState)
      (hreg : st.registry = none) :
      Step strict st st
  | createFailSome (strict : Bool) (st : SysState) (i : Nat) (s : SStream)
      (hreg : st.registry = some i) (hs : st.streams[i]? = some s)
      (hrun : s.running = false) :
      Step strict st ⟨st.streams.set i (cancelGrace s), some i⟩
  | addClient (strict : Bool) (st : SysState) (i : Nat) (s : SStream)
      (clientID : String) (hs : st.streams[i]? = some s) :
      Step strict st
        ⟨st.streams.set i { s with clients := s.clients ++ [clientID] }, st.registry⟩
  | removeClient (strict : Bool) (st : SysState) (i : Nat) (s : SStream)
      (clientID : String) (hs : st.streams[i]? = some s) :
      Step strict st
        ⟨st.streams.set i (removeClientStream s clientID), st.registry⟩
  | procExit (strict : Bool) (st : SysState) (i : Nat) (s : SStream)
      (hs : st.streams[i]? = some s) (hlive : s.procLive = true) :
      Step strict st
        ⟨st.streams.set i { s with procLive := false, running := false }, st.registry⟩
  | expire (strict : Bool) (st : SysState) (i : Nat) (s : SStream)
      (hs : st.streams[i]? = some s) (harm : s.armed = true) :
      Step strict st
        ⟨st.streams.set i { s with armed := false, pending := true }, st.registry⟩
  | fireKeep (strict : Bool) (st : SysState) (i : Nat) (s : SStream)
      (hs : st.streams[i]? = some s) (hp : s.pending = true)
      (hc : s.clients.length ≠ 0) :
      Step strict st
        ⟨st.streams.set i { s with pending := false }, st.registry⟩
  | fireStop (strict : Bool) (st : SysState) (i : Nat) (s : SStream)
      (hs : st.streams[i]? = some s) (hp : s.pending = true)
      (hc : s.clients.length = 0)
      (hstrict : strict = true → st.registry = some i) :
      Step strict st
        ⟨st.streams.set i { s with pending := false, running := false, procLive := false },
         none⟩

/-- The server starts with an empty registry and no stream objects. -/
def initState : SysState := ⟨[], none⟩

/-- States reachable from server start. -/
def Reachable (strict : Bool) (st : SysState) : Prop :=
  Relation.ReflTransGen (Step strict) initState st

/-- At most one stream object with a live process exists for the station. -/
def SingleFlight (st : SysState) : Prop :=
  ∀ (i j : Nat) (si sj : SStream),
    st.streams[i]? = some si → st.streams[j]? = some sj →
    si.procLive = true → sj.procLive = true → i = j

/-- Every stream with a live process is the registered entry and running. -/
def LiveReg (st : SysState) : Prop :=
  ∀ i s, st.streams[i]? = some s → s.procLive = true →
    st.registry = some i ∧ s.running = true

/-- Next-to-last state of the violating trace for claim C1: the grace-timer
callback of the long-dead stream 0 has just executed `Stop`/`removeStream`,
deleting the station's registry entry — which by then held stream 1, still
running with client "B" attached. -/
def c1PreState : SysState :=
  ⟨[⟨false, [], true, false, false, false⟩,
    ⟨true, ["B"], false, false, false, true⟩], none⟩

/-- End state of the violating trace for claim C1: stream 1 (serving client
"B") and stream 2 both have live ffmpeg processes for the same station. -/
def c1BadState : SysState :=
  ⟨[⟨false, [], true, false, false, false⟩,
    ⟨true, ["B"], false, false, false, true⟩,
    ⟨true, [], false, false, false, true⟩], some 2⟩

/-! ## Functional model of `getOrCreateStream` and `NewStationStream`
(part_005, lines 246-270 and 308-353) -/

/-- Collaborator calls observable during stream construction. -/
inductive Effect
  | areaLookup
  | authCall
  | urlFetch
  | spawn
deriving DecidableEq, Repr

/-- Responses of the collaborators consulted by `NewStationStream`:
`api.GetStationArea`, `api.Auth` (empty string signals failure),
`api.GetStreamURLs`, and the outcome of starting the ffmpeg process
(`startFFmpeg`, covering pipe setup and `cmd.Start`).  `lsid` is the fresh
session identifier from `model.GenLsid`; it only feeds the stream URL and
affects no claim, so the URL string itself is not reconstructed here. -/
structure Collab where
  area : Except String String
  auth : String
  urls : Except String (List String)
  spawnRes : Except String Unit
  lsid : String

/-- `NewStationStream` (part_005, lines 308-353): area lookup, then
authentication (empty token fails), then stream-URL resolution (error or
empty list fails), then process spawn.  Returns the constructed stream or
the error, together with the list of collaborator effects that occurred. -/
def newStationStream (c : Collab) : Except String SStream × List Effect :=
  match c.area with
  | Except.error e =>
    (Except.error ("failed to get station area: " ++ e), [Effect.areaLookup])
  | Except.ok _ =>
    if c.auth = "" then
      (Except.error "authentication failed", [Effect.areaLookup, Effect.authCall])
    else
      match c.urls with
      | Except.error e =>
        (Except.error ("failed to get stream URL: " ++ e),
         [Effect.areaLookup, Effect.authCall, Effect.urlFetch])
      | Except.ok playlistURLs =>
        if playlistURLs.length = 0 then
          (Except.error "no stream URLs found",
           [Effect.areaLookup, Effect.authCall, Effect.urlFetch])
        else
          match c.spawnRes with
          | Except.error e =>
            (Except.error e, [Effect.areaLookup, Effect.authCall, Effect.urlFetch])
          | Except.ok _ =>
            (Except.ok freshStream,
             [Effect.areaLookup, Effect.authCall, Effect.urlFetch, Effect.spawn])

/-- `getOrCreateStream` (part_005, lines 246-270) for one station key:
if an entry exists, cancel its grace timer; if it is running, return it
with no collaborator calls.  Otherwise construct a new stream; on success
register it, on failure return the error and register nothing.  Result:
(stream or error, the station's map entry afterwards, effects). -/
def getOrCreateStream (entry : Option SStream) (c : Collab) :
    Except String SStream × Option SStream × List Effect :=
  match entry with
  | some s =>
    let s1 := cancelGrace s
    if s.running then (Except.ok s1, some s1, [])
    else
      match newStationStream c with
      | (Except.error e, effs) => (Except.error e, some s1, effs)
      | (Except.ok ns, effs) => (Except.ok ns, some ns, effs)
  | none =>
    match newStationStream c with
    | (Except.error e, effs) => (Except.error e, none, effs)
    | (Except.ok ns, effs) => (Except.ok ns, some ns, effs)

/-! ## Broadcaster (part_005, `broadcastLoop`, lines 461-486) -/

/-- A client session as seen by the broadcaster: its id, whether its `done`
channel has been closed, and the bytes written to its sink so far. -/
structure CSession where
  id : String
  doneClosed : Bool
  received : List (List Nat)
deriving DecidableEq, Repr

/-- One pass of the broadcaster's inner loop over the snapshot of sessions
for a single chunk (lines 470-484): a session whose `done` channel is
closed is skipped; otherwise the chunk is written to its sink, and on a
write error its `done` channel is closed.  `writeOk id` tells whether the
write to session `id` succeeds.  Each session is handled independently. -/
def broadcastChunk (writeOk : String → Bool) (data : List Nat)
    (sessions : List CSession) : List CSession :=
  sessions.map fun s =>
    if s.doneClosed then s
    else if writeOk s.id then { s with received := s.received ++ [data] }
    else { s with doneClosed := true }

/-- The stream state the broadcaster goroutine can reach: the lifecycle
flags, the queue it drains, and the session set. -/
structure BStream where
  running : Bool
  procLive : Bool
  queue : List (List Nat)
  sessions : List CSession
deriving DecidableEq, Repr

/-- One iteration of `broadcastLoop`: drain the oldest chunk from the queue
(if any) and broadcast it to the session snapshot. -/
def bstreamStep (writeOk : String → Bool) (b : BStream) : BStream :=
  match b.queue with
  | [] => b
  | d :: rest => { b with queue := rest, sessions := broadcastChunk writeOk d b.sessions }

/-! ## `/api/status` (part_005, `Server.handleStatus` lines 92-96 and
`StreamManager.GetStatus` lines 215-233) -/

/-- One entry of the status JSON, as formatted by the `fmt.Sprintf` in
`GetStatus` (line 229). -/
def statusEntryJSON (stationID : String) (clientCount : Nat) (running : Bool) : String :=
  "\"" ++ stationID ++ "\":\x7b\"clients\":" ++ toString clientCount ++
    ",\"running\":" ++ (if running then "true" else "false") ++ "\x7d"

/-- `StreamManager.GetStatus` (lines 215-233): build the JSON object by
appending one entry per stream of this manager, comma-separating via the
`first` flag.  The manager's map is modelled as an association list in some
iteration order. -/
def getStatus (streams : List (String × SStream)) : String :=
  (streams.foldl
    (fun (acc : String × Bool) kv =>
      (acc.1 ++ (if acc.2 then "" else ",") ++
        statusEntryJSON kv.1 kv.2.clients.length kv.2.running, false))
    ("\x7b", true)).1 ++ "\x7d"

/-- Comma-separated rendering of status entries (spec-side view of the same
JSON object, used to state what `getStatus` produces). -/
def renderEntries : List (String × SStream) → String
  | [] => ""
  | kv :: rest =>
    match rest with
    | [] => statusEntryJSON kv.1 kv.2.clients.length kv.2.running
    | _ :: _ =>
      statusEntryJSON kv.1 kv.2.clients.length kv.2.running ++ "," ++ renderEntries rest

/-- Comma-prefixed rendering of status entries (the shape the `first`-flag
fold produces after its first element). -/
def commaEntries : List (String × SStream) → String
  | [] => ""
  | kv :: rest =>
    "," ++ statusEntryJSON kv.1 kv.2.clients.length kv.2.running ++ commaEntries rest

/-- The server's two stream managers (`Server`, part_005, lines 55-60):
the container-profile (`streamManager`) and PCM (`pcmStreamManager`)
registries, each mapping station ids to streams. -/
structure ServerModel where
  aacStreams : List (String × SStream)
  pcmStreams : List (String × SStream)
deriving DecidableEq, Repr

/-- `handleStatus` (lines 92-96): it returns
`s.streamManager.GetStatus()` — only the container-profile manager. -/
def serverHandleStatus (sv : ServerModel) : String :=
  getStatus sv.aacStreams

/-- Server state refuting claim C8: one live PCM stream with one client,
no container streams. -/
def c8Server : ServerModel :=
  ⟨[], [("QRR", ⟨true, ["10.0.0.5-17"], false, false, false, true⟩)]⟩

/-! ## HTTP player (part_003, `HTTPPlayer`, lines 172-509).
The float64 volume is modelled as `ℚ`; `lastDataTime`, the HTTP/audio
handles and the contexts are environment resources, not settings, and are
outside the model.  `netOk` stands for the outcome of the HTTP round trip
(and audio initialisation) in `Play`. -/

structure HTTPPlayer where
  serverURL : String
  stationID : String
  playing : Bool
  volume : ℚ
  muted : Bool
deriving DecidableEq, Repr

/-- `NewHTTPPlayer` (lines 189-208): clamp the initial volume into
[0, 1]; not playing; not muted. -/
def newHTTPPlayer (serverURL : String) (initialVolume : ℚ) : HTTPPlayer :=
  let v := if initialVolume < 0 then 0
           else if initialVolume > 1 then 1
           else initialVolume
  ⟨serverURL, "", false, v, false⟩

/-- `Play` (lines 211-257): error if already playing; record the station
id; then connect — on success `playing` becomes true, on failure the state
is otherwise unchanged.  Returns the state and whether playback started. -/
def play (p : HTTPPlayer) (stationID : String) (netOk : Bool) : HTTPPlayer × Bool :=
  if p.playing then (p, false)
  else
    let p1 := { p with stationID := stationID }
    if netOk then ({ p1 with playing := true }, true) else (p1, false)

/-- `Stop` (lines 342-364): no-op when not playing; otherwise cancel the
context, close the audio player and response body, and clear `playing`.
Volume and mute state are untouched. -/
def stop (p : HTTPPlayer) : HTTPPlayer :=
  if p.playing then { p with playing := false } else p

/-- `Reconnect` (lines 463-480): save the station id, volume and mute flag;
`Stop`; pause; restore the saved volume and mute flag; `Play` the same
station. -/
def reconnect (p : HTTPPlayer) (netOk : Bool) : HTTPPlayer × Bool :=
  let stationID := p.stationID
  let volume := p.volume
  let muted := p.muted
  let p1 := stop p
  let p2 := { p1 with volume := volume, muted := muted }
  play p2 stationID netOk

/-- `SetVolume` (lines 372-386): clamp into [0, 1]; clear `muted` if set. -/
def setVolume (p : HTTPPlayer) (volume : ℚ) : HTTPPlayer :=
  let v := if volume < 0 then 0
           else if volume > 1 then 1
           else volume
  { p with volume := v, muted := if p.muted then false else p.muted }

/-- `IncreaseVolume` (lines 394-405): add the delta, cap at 1 (no lower
clamp); clear `muted` if set. -/
def increaseVolume (p : HTTPPlayer) (delta : ℚ) : HTTPPlayer :=
  let v := p.volume + delta
  let v1 := if v > 1 then 1 else v
  { p with volume := v1, muted := if p.muted then false else p.muted }

/-- `DecreaseVolume` (lines 407-418): subtract the delta, floor at 0 (no
upper clamp); clear `muted` if set. -/
def decreaseVolume (p : HTTPPlayer) (delta : ℚ) : HTTPPlayer :=
  let v := p.volume - delta
  let v1 := if v < 0 then 0 else v
  { p with volume := v1, muted := if p.muted then false else p.muted }

/-- `ToggleMute` (lines 420-424): flip `muted`; the stored volume is not
touched. -/
def toggleMute (p : HTTPPlayer) : HTTPPlayer :=
  { p with muted := !p.muted }

/-- A volume-surface operation of the player. -/
inductive VolOp
  | setV (v : ℚ)
  | inc (d : ℚ)
  | dec (d : ℚ)
  | mute
deriving Repr

/-- Apply one volume operation. -/
def applyOp (p : HTTPPlayer) : VolOp → HTTPPlayer
  | VolOp.setV v => setVolume p v
  | VolOp.inc d => increaseVolume p d
  | VolOp.dec d => decreaseVolume p d
  | VolOp.mute => toggleMute p

/-- Apply a sequence of volume operations. -/
def applyOps (p : HTTPPlayer) (l : List VolOp) : HTTPPlayer :=
  l.foldl applyOp p

/-- Deltas of `inc`/`dec` operations are non-negative (every call site in
the repository passes the positive constants 0.05 or 0.03). -/
def VolOp.nonnegDelta : VolOp → Prop
  | VolOp.inc d => 0 ≤ d
  | VolOp.dec d => 0 ≤ d
  | _ => True

/-- The volume invariant of the player. -/
def volInv (p : HTTPPlayer) : Prop :=
  0 ≤ p.volume ∧ p.volume ≤ 1

/-! ## Frame-aligner lemmas -/

/-- A chunk produced by one aligner step is a non-empty multiple of the
frame size. -/
theorem pcmStep_chunk_aligned (residue r ch : List Nat)
    (h : (pcmStep residue r).2 = some ch) :
    ch.length % 4 = 0 ∧ 0 < ch.length := by
  unfold pcmStep at h
  split at h
  · simp at h
  · dsimp only at h
    split at h
    · rename_i hp
      dsimp only at h
      rw [Option.some.injEq] at h
      subst h
      have hle : (residue ++ r).length / frameSize * frameSize ≤ (residue ++ r).length :=
        Nat.div_mul_le_self _ _
      rw [List.length_take]
      simp only [frameSize] at hp hle ⊢
      omega
    · simp at h

/-- One aligner step neither loses nor reorders bytes: the pushed chunk
(if any) followed by the new residue is the old residue followed by the
read bytes. -/
theorem pcmStep_join (residue r : List Nat) :
    ((pcmStep residue r).2.getD []) ++ (pcmStep residue r).1 = residue ++ r := by
  unfold pcmStep
  split
  · rename_i hr
    rw [List.length_eq_zero.mp hr]
    simp
  · dsimp only
    split
    · dsimp only [Option.getD_some]
      exact List.take_append_drop _ _
    · rename_i hp
      dsimp only [Option.getD_none]
      have h0 : (residue ++ r).length / frameSize * frameSize = 0 :=
        Nat.le_zero.mp (Nat.not_lt.mp hp)
      rw [h0, List.drop_zero, List.nil_append]

/-- Every chunk of a whole aligner run is a non-empty multiple of 4. -/
theorem pcmRun_chunks_aligned (reads : List (List Nat)) : ∀ (residue ch : List Nat),
    ch ∈ (pcmRun residue reads).2 → ch.length % 4 = 0 ∧ 0 < ch.length := by
  induction reads with
  | nil => intro residue ch h; simp [pcmRun] at h
  | cons r rs ih =>
    intro residue ch h
    unfold pcmRun at h
    rcases hstep : pcmStep residue r with ⟨res1, copt⟩
    rw [hstep] at h
    cases copt with
    | none => exact ih res1 ch h
    | some c =>
      simp only [List.mem_cons] at h
      rcases h with h | h
      · subst h
        exact pcmStep_chunk_aligned residue r ch (by rw [hstep])
      · exact ih res1 ch h

/-- A whole aligner run neither loses nor reorders bytes. -/
theorem pcmRun_join (reads : List (List Nat)) : ∀ residue : List Nat,
    ((pcmRun residue reads).2).flatten ++ (pcmRun residue reads).1
      = residue ++ reads.flatten := by
  induction reads with
  | nil => intro residue; simp [pcmRun]
  | cons r rs ih =>
    intro residue
    have hj := pcmStep_join residue r
    unfold pcmRun
    rcases hstep : pcmStep residue r with ⟨res1, copt⟩
    rw [hstep] at hj
    cases copt with
    | none =>
      dsimp only
      simp only [Option.getD_none, List.nil_append] at hj
      rw [ih res1, hj, List.flatten_cons, List.append_assoc]
    | some c =>
      dsimp only
      simp only [Option.getD_some] at hj
      rw [List.flatten_cons, List.append_assoc, ih res1, ← List.append_assoc, hj,
        List.flatten_cons, List.append_assoc]

/-- C2: for the raw-PCM profile, every chunk the producer pushes into the
broadcast queue has a length that is a non-zero multiple of 4 bytes, for
every sequence of underlying reads; leftover bytes are carried in the
residual buffer, so no bytes are lost or reordered (the concatenation of
the pushed chunks followed by the final residue equals the concatenation
of all bytes read). -/
theorem c2_pcm_alignment (reads : List (List Nat)) :
    (∀ ch ∈ (pcmRun [] reads).2, ch.length % 4 = 0 ∧ 0 < ch.length) ∧
    ((pcmRun [] reads).2).flatten ++ (pcmRun [] reads).1 = reads.flatten := by
  constructor
  · intro ch h
    exact pcmRun_chunks_aligned reads [] ch h
  · simpa using pcmRun_join reads []

/-- C2 witness: evaluation on the concrete read sequence
`[1,2,3]`, `[4,5,6,7]`, `[8]`: the chunks are `[1,2,3,4]`, `[5,6,7,8]`. -/
theorem c2_pcm_alignment_witness :
    ([1, 2, 3, 4] : List Nat).length % 4 = 0 ∧ 0 < ([1, 2, 3, 4] : List Nat).length ∧
    ((pcmRun [] [[1, 2, 3], [4, 5, 6, 7], [8]]).2).flatten
      ++ (pcmRun [] [[1, 2, 3], [4, 5, 6, 7], [8]]).1
      = [[1, 2, 3], [4, 5, 6, 7], [8]].flatten := by
  have h := (c2_pcm_alignment [[1, 2, 3], [4, 5, 6, 7], [8]]).1 [1, 2, 3, 4] (by decide)
  exact ⟨h.1, h.2, (c2_pcm_alignment [[1, 2, 3], [4, 5, 6, 7], [8]]).2⟩

/-- C3: the producer's push never blocks (it is a total function) and,
for every queue state: with capacity remaining the chunk is appended; when
full, exactly the single oldest chunk is discarded and the new chunk is
appended, keeping the remaining chunks in FIFO order. -/
theorem c3_push_drop_oldest (q : BroadcastChan) (data : List Nat) :
    (q.buffer.length < q.capacity → (q.push data).buffer = q.buffer ++ [data]) ∧
    (q.capacity ≤ q.buffer.length → 0 < q.capacity →
      q.buffer ≠ [] ∧ (q.push data).buffer = q.buffer.tail ++ [data]) := by
  constructor
  · intro h
    simp [BroadcastChan.push, h]
  · intro h hc
    have hfull : ¬ q.buffer.length < q.capacity := by omega
    refine ⟨?_, by simp [BroadcastChan.push, hfull]⟩
    intro hnil
    rw [hnil] at h
    simp at h
    omega

/-- C3 witness: a full queue of capacity 2 drops its oldest chunk; a queue
with room appends. -/
theorem c3_push_drop_oldest_witness :
    (BroadcastChan.push ⟨2, [[1], [2]]⟩ [3]).buffer = [[2], [3]] ∧
    (BroadcastChan.push ⟨2, [[1]]⟩ [3]).buffer = [[1], [3]] := by
  have h2 := (c3_push_drop_oldest ⟨2, [[1], [2]]⟩ [3]).2 (by decide) (by decide)
  have h1 := (c3_push_drop_oldest ⟨2, [[1]]⟩ [3]).1 (by decide)
  exact ⟨h2.2, h1⟩

/-- C6: grace-timer operations are idempotent — arming while armed is a
no-op, cancelling with no timer armed is a no-op — and the fired callback
stops the stream exactly when the client count is zero at fire time. -/
theorem c6_grace_idempotent (s : SStream) :
    (s.handleSet = true → startGrace s = s) ∧
    (s.handleSet = false → cancelGrace s = s) ∧
    ((graceTimerFire s).2 = true ↔ s.clients.length = 0) ∧
    (s.clients.length = 0 →
      (graceTimerFire s).1 = stopStream s ∧ (graceTimerFire s).1.running = false) ∧
    (s.clients.length ≠ 0 → (graceTimerFire s).1 = s) := by
  refine ⟨fun h => by simp [startGrace, h],
          fun h => by simp [cancelGrace, h], ?_,
          fun h => by simp [graceTimerFire, stopStream, h],
          fun h => by simp [graceTimerFire, h]⟩
  by_cases h : s.clients.length = 0 <;> simp [graceTimerFire, h]

/-- C6 witness: evaluation on concrete streams — arming an armed timer,
cancelling an unarmed one, a fire with zero clients (stops) and a fire with
one client (no-op). -/
theorem c6_grace_idempotent_witness :
    startGrace ⟨true, [], true, true, false, true⟩ = ⟨true, [], true, true, false, true⟩ ∧
    cancelGrace ⟨true, ["A"], false, false, false, true⟩
      = ⟨true, ["A"], false, false, false, true⟩ ∧
    (graceTimerFire ⟨true, [], true, false, true, true⟩).2 = true ∧
    (graceTimerFire ⟨true, ["A"], true, false, true, true⟩).1
      = ⟨true, ["A"], true, false, true, true⟩ := by
  refine ⟨(c6_grace_idempotent _).1 rfl, (c6_grace_idempotent _).2.1 rfl, ?_,
          (c6_grace_idempotent _).2.2.2.2 (by decide)⟩
  exact (c6_grace_idempotent ⟨true, [], true, false, true, true⟩).2.2.1.mpr rfl

/-- C9: the reconnect sequence re-subscribes with the same station id and
leaves the player's volume, mute flag and server URL exactly as they were
immediately before the reconnect; playback resumes exactly when the fresh
`Play` round trip succeeds. -/
theorem c9_reconnect_preserves_settings (p : HTTPPlayer) (netOk : Bool) :
    (reconnect p netOk).1.volume = p.volume ∧
    (reconnect p netOk).1.muted = p.muted ∧
    (reconnect p netOk).1.stationID = p.stationID ∧
    (reconnect p netOk).1.serverURL = p.serverURL ∧
    (reconnect p netOk).1.playing = netOk ∧
    (reconnect p netOk).2 = netOk := by
  unfold reconnect stop play
  by_cases hp : p.playing <;> cases netOk <;> simp [hp]

/-- C10 counterexample: `IncreaseVolume` has no lower clamp, so passing a
negative delta drives the stored volume below 0 — the claimed invariant
"volume is always within [0, 1] after every operation" fails as stated for
arbitrary deltas. -/
theorem c10_volume_counterexample :
    (increaseVolume (newHTTPPlayer "http://localhost:8080" (1 / 2)) (-1)).volume < 0 := by
  norm_num [increaseVolume, newHTTPPlayer]

/-- Each volume operation with a non-negative delta preserves the volume
invariant. -/
theorem applyOp_volInv (p : HTTPPlayer) (op : VolOp)
    (hp : volInv p) (hop : op.nonnegDelta) : volInv (applyOp p op) := by
  rcases hp with ⟨h0, h1⟩
  cases op with
  | setV v =>
    simp only [applyOp, setVolume, volInv]
    split_ifs <;> constructor <;> linarith
  | inc d =>
    simp only [VolOp.nonnegDelta] at hop
    simp only [applyOp, increaseVolume, volInv]
    split_ifs <;> constructor <;> linarith
  | dec d =>
    simp only [VolOp.nonnegDelta] at hop
    simp only [applyOp, decreaseVolume, volInv]
    split_ifs <;> constructor <;> linarith
  | mute =>
    simpa [applyOp, toggleMute, volInv] using ⟨h0, h1⟩

/-- The invariant is preserved by any sequence of non-negative-delta
operations. -/
theorem applyOps_volInv (l : List VolOp) : ∀ p : HTTPPlayer, volInv p →
    (∀ op ∈ l, op.nonnegDelta) → volInv (applyOps p l) := by
  induction l with
  | nil => intro p hp _; exact hp
  | cons op rest ih =>
    intro p hp hops
    have h1 := applyOp_volInv p op hp (hops op (by simp))
    have h2 := ih (applyOp p op) h1 (fun o ho => hops o (by simp [ho]))
    simpa [applyOps] using h2

/-- The constructor clamps the initial volume into [0, 1]. -/
theorem newHTTPPlayer_volInv (u : String) (v : ℚ) : volInv (newHTTPPlayer u v) := by
  simp only [newHTTPPlayer, volInv]
  split_ifs <;> constructor <;> linarith

/-- C10 amended: provided the deltas passed to `IncreaseVolume` and
`DecreaseVolume` are non-negative (as at every call site in the
repository), the volume stays within [0, 1] after the constructor and
every sequence of operations; `SetVolume`, `IncreaseVolume` and
`DecreaseVolume` each clear the mute flag when it is set; `ToggleMute`
leaves the stored volume unchanged. -/
theorem c10_volume_amended :
    (∀ (u : String) (v : ℚ) (l : List VolOp), (∀ op ∈ l, op.nonnegDelta) →
      volInv (applyOps (newHTTPPlayer u v) l)) ∧
    (∀ p : HTTPPlayer, p.muted = true →
      (∀ v, (setVolume p v).muted = false) ∧
      (∀ d, (increaseVolume p d).muted = false) ∧
      (∀ d, (decreaseVolume p d).muted = false)) ∧
    (∀ p : HTTPPlayer, (toggleMute p).volume = p.volume) := by
  refine ⟨fun u v l hl => applyOps_volInv l _ (newHTTPPlayer_volInv u v) hl, ?_, ?_⟩
  · intro p hm
    exact ⟨fun v => by simp [setVolume, hm], fun d => by simp [increaseVolume, hm],
           fun d => by simp [decreaseVolume, hm]⟩
  · intro p
    simp [toggleMute]

/-- C10 witness: a concrete operation sequence with non-negative deltas
keeps the volume in range, and `SetVolume` unmutes a muted player. -/
theorem c10_volume_amended_witness :
    volInv (applyOps (newHTTPPlayer "u" 2)
      [VolOp.inc (1 / 4), VolOp.dec 1, VolOp.mute, VolOp.setV (3 / 4)]) ∧
    (setVolume ⟨"u", "", false, 1 / 2, true⟩ 5).muted = false := by
  constructor
  · refine c10_volume_amended.1 "u" 2 _ ?_
    intro op hop
    simp only [List.mem_cons, List.mem_singleton] at hop
    rcases hop with rfl | rfl | rfl | rfl | h
    · norm_num [VolOp.nonnegDelta]
    · norm_num [VolOp.nonnegDelta]
    · trivial
    · trivial
    · simp at h
  · exact (c10_volume_amended.2.1 ⟨"u", "", false, 1 / 2, true⟩ rfl).1 5

/-- C4: a subscription to a station whose stream exists and is running
cancels the pending grace timer and returns the existing stream with no
collaborator calls at all — no area lookup, no authentication, no process
spawn — and with its running flag, client set, process and pending-callback
state untouched. -/
theorem c4_reuse_no_side_effects (s : SStream) (c : Collab) (hrun : s.running = true) :
    getOrCreateStream (some s) c = (Except.ok (cancelGrace s), some (cancelGrace s), []) ∧
    (cancelGrace s).running = s.running ∧
    (cancelGrace s).clients = s.clients ∧
    (cancelGrace s).procLive = s.procLive ∧
    (cancelGrace s).pending = s.pending := by
  refine ⟨by simp [getOrCreateStream, hrun], ?_, ?_, ?_, ?_⟩ <;>
    (unfold cancelGrace; split <;> rfl)

/-- C4 witness: evaluation on a concrete running stream with an armed
grace timer — only the timer is disarmed, nothing else happens. -/
theorem c4_reuse_no_side_effects_witness :
    getOrCreateStream (some ⟨true, ["A"], true, true, false, true⟩)
        ⟨Except.ok "JP13", "tok", Except.ok ["u1"], Except.ok (), "ls"⟩
      = (Except.ok ⟨true, ["A"], false, false, false, true⟩,
         some ⟨true, ["A"], false, false, false, true⟩, []) := by
  have h := c4_reuse_no_side_effects ⟨true, ["A"], true, true, false, true⟩
    ⟨Except.ok "JP13", "tok", Except.ok ["u1"], Except.ok (), "ls"⟩ rfl
  simpa [cancelGrace] using h.1

/-- Any of the five setup failures makes `NewStationStream` return an
error. -/
theorem newStationStream_fails (c : Collab)
    (hfail : c.area.isOk = false ∨ c.auth = "" ∨ c.urls.isOk = false ∨
             c.urls = Except.ok [] ∨ c.spawnRes.isOk = false) :
    ((newStationStream c).1).isOk = false := by
  unfold newStationStream
  rcases harea : c.area with e | a
  · rfl
  · dsimp only
    by_cases hauth : c.auth = ""
    · rw [if_pos hauth]
      rfl
    · rw [if_neg hauth]
      rcases hurls : c.urls with e2 | us
      · rfl
      · dsimp only
        by_cases hlen : us.length = 0
        · rw [if_pos hlen]
          rfl
        · rw [if_neg hlen]
          rcases hspawn : c.spawnRes with e3 | u
          · rfl
          · exfalso
            rcases hfail with h | h | h | h | h
            · rw [harea] at h
              simp [Except.isOk, Except.toBool] at h
            · exact hauth h
            · rw [hurls] at h
              simp [Except.isOk, Except.toBool] at h
            · rw [hurls] at h
              rw [Except.ok.injEq] at h
              exact hlen (by rw [h]; rfl)
            · rw [hspawn] at h
              simp [Except.isOk, Except.toBool] at h

/-- C5: every failing construction attempt (area lookup failure, empty
authentication token, stream-URL resolution failure, empty URL list, or
process spawn failure) surfaces an error to the subscribing caller and
registers nothing: the station's map entry afterwards is the entry it had
before (with only its grace timer cancelled, cf. C4), and in particular an
absent station stays absent. -/
theorem c5_setup_failure_not_registered (entry : Option SStream) (c : Collab)
    (hrun : ∀ s, entry = some s → s.running = false)
    (hfail : c.area.isOk = false ∨ c.auth = "" ∨ c.urls.isOk = false ∨
             c.urls = Except.ok [] ∨ c.spawnRes.isOk = false) :
    (getOrCreateStream entry c).1.isOk = false ∧
    (getOrCreateStream entry c).2.1 = Option.map cancelGrace entry ∧
    ((getOrCreateStream entry c).2.1).isSome = entry.isSome := by
  have hns := newStationStream_fails c hfail
  rcases hres : newStationStream c with ⟨r, effs⟩
  rw [hres] at hns
  cases r with
  | ok ns => simp [Except.isOk, Except.toBool] at hns
  | error e =>
    cases entry with
    | none => simp [getOrCreateStream, hres, Except.isOk, Except.toBool]
    | some s =>
      have hsrun := hrun s rfl
      simp [getOrCreateStream, hsrun, hres, Except.isOk, Except.toBool]

/-- C5 witness: an empty authentication token with no existing entry —
the error is surfaced and the station remains unregistered. -/
theorem c5_setup_failure_not_registered_witness :
    (getOrCreateStream none
        ⟨Except.ok "JP13", "", Except.ok ["u1"], Except.ok (), "ls"⟩).1.isOk = false ∧
    (getOrCreateStream none
        ⟨Except.ok "JP13", "", Except.ok ["u1"], Except.ok (), "ls"⟩).2.1 = none := by
  have h := c5_setup_failure_not_registered none
    ⟨Except.ok "JP13", "", Except.ok ["u1"], Except.ok (), "ls"⟩
    (fun s hs => nomatch hs) (Or.inr (Or.inl rfl))
  exact ⟨h.1, h.2.1⟩

/-- C7: when the broadcaster writes a chunk to the session snapshot, a
session whose write fails has exactly its own done signal closed (and its
sink receives nothing), every session whose done signal is open and whose
write succeeds receives the chunk, a session with a closed done signal is
skipped unchanged, no session is dropped from the snapshot, and the
stream's running flag, process and queue behaviour are unaffected by which
writes fail. -/
theorem c7_write_failure_isolated (writeOk : String → Bool) (data : List Nat)
    (sessions : List CSession) :
    ((broadcastChunk writeOk data sessions).length = sessions.length) ∧
    (∀ (i : Nat) (s : CSession), sessions[i]? = some s → s.doneClosed = true →
      (broadcastChunk writeOk data sessions)[i]? = some s) ∧
    (∀ (i : Nat) (s : CSession), sessions[i]? = some s → s.doneClosed = false →
      writeOk s.id = false →
      (broadcastChunk writeOk data sessions)[i]? = some { s with doneClosed := true }) ∧
    (∀ (i : Nat) (s : CSession), sessions[i]? = some s → s.doneClosed = false →
      writeOk s.id = true →
      (broadcastChunk writeOk data sessions)[i]?
        = some { s with received := s.received ++ [data] }) ∧
    (∀ (b : BStream) (w2 : String → Bool),
      (bstreamStep writeOk b).running = b.running ∧
      (bstreamStep writeOk b).procLive = b.procLive ∧
      (bstreamStep writeOk b).queue = (bstreamStep w2 b).queue) := by
  refine ⟨by simp [broadcastChunk], ?_, ?_, ?_, ?_⟩
  · intro i s hs hd
    simp only [broadcastChunk, List.getElem?_map, hs, Option.map_some']
    simp [hd]
  · intro i s hs hd hw
    simp only [broadcastChunk, List.getElem?_map, hs, Option.map_some']
    simp [hd, hw]
  · intro i s hs hd hw
    simp only [broadcastChunk, List.getElem?_map, hs, Option.map_some']
    simp [hd, hw]
  · intro b w2
    cases hq : b.queue with
    | nil => simp [bstreamStep, hq]
    | cons d rest => simp [bstreamStep, hq]

/-- C7 witness: chunk `[9]` broadcast to three sessions, the write to "B"
failing — "A" receives the chunk, "B" gets its done signal closed, the
already-done "C" is skipped unchanged. -/
theorem c7_write_failure_isolated_witness :
    (broadcastChunk (fun i => i != "B") [9]
      [⟨"A", false, []⟩, ⟨"B", false, []⟩, ⟨"C", true, [[7]]⟩])[0]?
        = some ⟨"A", false, [[9]]⟩ ∧
    (broadcastChunk (fun i => i != "B") [9]
      [⟨"A", false, []⟩, ⟨"B", false, []⟩, ⟨"C", true, [[7]]⟩])[1]?
        = some ⟨"B", true, []⟩ ∧
    (broadcastChunk (fun i => i != "B") [9]
      [⟨"A", false, []⟩, ⟨"B", false, []⟩, ⟨"C", true, [[7]]⟩])[2]?
        = some ⟨"C", true, [[7]]⟩ := by
  have h := c7_write_failure_isolated (fun i => i != "B") [9]
    [⟨"A", false, []⟩, ⟨"B", false, []⟩, ⟨"C", true, [[7]]⟩]
  exact ⟨h.2.2.2.1 0 ⟨"A", false, []⟩ rfl rfl (by decide),
         h.2.2.1 1 ⟨"B", false, []⟩ rfl rfl (by decide),
         h.2.1 2 ⟨"C", true, [[7]]⟩ rfl rfl⟩

/-- The status fold, once past its first element, appends one
comma-prefixed entry per stream. -/
theorem getStatus_fold (l : List (String × SStream)) : ∀ acc : String,
    (l.foldl
      (fun (a : String × Bool) kv =>
        (a.1 ++ (if a.2 then "" else ",") ++
          statusEntryJSON kv.1 kv.2.clients.length kv.2.running, false))
      (acc, false)).1
    = acc ++ commaEntries l := by
  induction l with
  | nil => intro acc; simp [commaEntries]
  | cons kv rest ih =>
    intro acc
    rw [List.foldl_cons]
    dsimp only
    rw [if_neg (by simp), ih, commaEntries]
    simp [String.append_assoc]

/-- `renderEntries` is the head entry followed by the comma-prefixed
tail. -/
theorem renderEntries_cons (l : List (String × SStream)) :
    ∀ kv : String × SStream,
      renderEntries (kv :: l)
        = statusEntryJSON kv.1 kv.2.clients.length kv.2.running ++ commaEntries l := by
  induction l with
  | nil => intro kv; simp [renderEntries, commaEntries]
  | cons kv2 rest ih =>
    intro kv
    rw [renderEntries, commaEntries, ih kv2]
    simp [String.append_assoc]

/-- C8 counterexample: a server whose only live stream is a PCM stream
(station "QRR", running, one attached client) answers `/api/status` with
the empty JSON object — the PCM endpoint's streams are absent from the
status, refuting the claim that the status covers both endpoints. -/
theorem c8_status_counterexample :
    c8Server.pcmStreams.map (fun kv => (kv.1, kv.2.running, kv.2.clients.length))
      = [("QRR", true, 1)] ∧
    serverHandleStatus c8Server = "\x7b\x7d" := by
  exact ⟨rfl, rfl⟩

/-- C8 amended: `/api/status` returns a JSON object with exactly one entry
per stream of the container-profile manager — mapping the station id to
its attached-session count and running flag — and is independent of the
PCM manager's streams, which are never included. -/
theorem c8_status_amended :
    (∀ sv : ServerModel,
      serverHandleStatus sv = "\x7b" ++ renderEntries sv.aacStreams ++ "\x7d") ∧
    (∀ sv1 sv2 : ServerModel, sv1.aacStreams = sv2.aacStreams →
      serverHandleStatus sv1 = serverHandleStatus sv2) := by
  constructor
  · intro sv
    unfold serverHandleStatus getStatus
    cases hl : sv.aacStreams with
    | nil => simp [renderEntries]
    | cons kv rest =>
      rw [List.foldl_cons]
      dsimp only
      rw [if_pos rfl, getStatus_fold rest, renderEntries_cons rest kv]
      simp [String.append_assoc]
  · intro sv1 sv2 h
    unfold serverHandleStatus getStatus
    rw [h]

/-- C8 amended witness: a server with one container stream renders that
entry, and adding PCM streams does not change the status output. -/
theorem c8_status_amended_witness :
    serverHandleStatus ⟨[("QRR", ⟨true, ["x"], false, false, false, true⟩)], []⟩
      = "\x7b" ++ renderEntries [("QRR", ⟨true, ["x"], false, false, false, true⟩)] ++ "\x7d" ∧
    serverHandleStatus ⟨[], [("TBS", freshStream)]⟩ = serverHandleStatus ⟨[], []⟩ := by
  exact ⟨c8_status_amended.1 _,
         c8_status_amended.2 ⟨[], [("TBS", freshStream)]⟩ ⟨[], []⟩ rfl⟩

/-- C1: the single-flight invariant fails on the code.  The trace below is
an ordinary interleaving of the source's own lock-protected sections:
(1) subscribe "A" — a stream is spawned; (2) "A"'s session is registered;
(3) the ffmpeg process dies (read error), the producer clears `running`;
(4) a second subscriber arrives: the entry is not running, so a fresh
stream (index 1) is spawned and registered under the station key;
(5) its client "B" is registered; (6) the first subscriber "A" — still
attached to the dead stream 0 — disconnects, arming stream 0's grace
timer (which nothing ever cancels, since stream 0 is no longer the
registry entry); (7) the timer expires; (8) its callback finds zero
clients on stream 0 and calls `Stop`, whose `onClose` runs
`removeStream(stationID)` — deleting the registry entry that now holds the
running stream 1; (9) a third subscriber arrives, finds no entry, and
spawns stream 2 while stream 1's process is still live.  Two concurrent
ffmpeg processes exist for one station, and the final step is a
subscription spawning a process while another is running. -/
theorem c1_two_live_processes :
    Reachable false c1PreState ∧
    Step false c1PreState c1BadState ∧
    c1PreState.streams[1]?.map SStream.procLive = some true ∧
    c1BadState.streams[1]?.map SStream.procLive = some true ∧
    c1BadState.streams[2]?.map SStream.procLive = some true ∧
    ¬ SingleFlight c1BadState := by
  have h1 : Step false initState ⟨[⟨true, [], false, false, false, true⟩], some 0⟩ :=
    Step.spawnNew false initState rfl
  have h2 : Step false ⟨[⟨true, [], false, false, false, true⟩], some 0⟩
      ⟨[⟨true, ["A"], false, false, false, true⟩], some 0⟩ :=
    Step.addClient false _ 0 ⟨true, [], false, false, false, true⟩ "A" rfl
  have h3 : Step false ⟨[⟨true, ["A"], false, false, false, true⟩], some 0⟩
      ⟨[⟨false, ["A"], false, false, false, false⟩], some 0⟩ :=
    Step.procExit false _ 0 ⟨true, ["A"], false, false, false, true⟩ rfl rfl
  have h4 : Step false ⟨[⟨false, ["A"], false, false, false, false⟩], some 0⟩
      ⟨[⟨false, ["A"], false, false, false, false⟩,
        ⟨true, [], false, false, false, true⟩], some 1⟩ :=
    Step.spawnReplace false _ 0 ⟨false, ["A"], false, false, false, false⟩ rfl rfl rfl
  have h5 : Step false
      ⟨[⟨false, ["A"], false, false, false, false⟩,
        ⟨true, [], false, false, false, true⟩], some 1⟩
      ⟨[⟨false, ["A"], false, false, false, false⟩,
        ⟨true, ["B"], false, false, false, true⟩], some 1⟩ :=
    Step.addClient false _ 1 ⟨true, [], false, false, false, true⟩ "B" rfl
  have h6 : Step false
      ⟨[⟨false, ["A"], false, false, false, false⟩,
        ⟨true, ["B"], false, false, false, true⟩], some 1⟩
      ⟨[⟨false, [], true, true, false, false⟩,
        ⟨true, ["B"], false, false, false, true⟩], some 1⟩ :=
    Step.removeClient false _ 0 ⟨false, ["A"], false, false, false, false⟩ "A" rfl
  have h7 : Step false
      ⟨[⟨false, [], true, true, false, false⟩,
        ⟨true, ["B"], false, false, false, true⟩], some 1⟩
      ⟨[⟨false, [], true, false, true, false⟩,
        ⟨true, ["B"], false, false, false, true⟩], some 1⟩ :=
    Step.expire false _ 0 ⟨false, [], true, true, false, false⟩ rfl rfl
  have h8 : Step false
      ⟨[⟨false, [], true, false, true, false⟩,
        ⟨true, ["B"], false, false, false, true⟩], some 1⟩
      c1PreState :=
    Step.fireStop false _ 0 ⟨false, [], true, false, true, false⟩ rfl rfl rfl
      (fun h => nomatch h)
  have hreach : Reachable false c1PreState :=
    Relation.ReflTransGen.tail
      (Relation.ReflTransGen.tail
        (Relation.ReflTransGen.tail
          (Relation.ReflTransGen.tail
            (Relation.ReflTransGen.tail
              (Relation.ReflTransGen.tail
                (Relation.ReflTransGen.tail
                  (Relation.ReflTransGen.single h1) h2) h3) h4) h5) h6) h7) h8
  refine ⟨hreach, Step.spawnNew false c1PreState rfl, rfl, rfl, rfl, ?_⟩
  intro h
  have h12 := h 1 2 ⟨true, ["B"], false, false, false, true⟩
    ⟨true, [], false, false, false, true⟩ rfl rfl rfl rfl
  exact absurd h12 (by decide)

/-- `cancelGrace` touches only the timer fields. -/
theorem cancelGrace_fields (s : SStream) :
    (cancelGrace s).running = s.running ∧ (cancelGrace s).clients = s.clients ∧
    (cancelGrace s).procLive = s.procLive ∧ (cancelGrace s).pending = s.pending := by
  unfold cancelGrace
  split <;> exact ⟨rfl, rfl, rfl, rfl⟩

/-- `removeClientStream` touches only the client set and timer fields. -/
theorem removeClientStream_fields (s : SStream) (cid : String) :
    (removeClientStream s cid).running = s.running ∧
    (removeClientStream s cid).procLive = s.procLive := by
  unfold removeClientStream startGrace
  dsimp only
  split
  · split <;> exact ⟨rfl, rfl⟩
  · exact ⟨rfl, rfl⟩

/-- Preservation of `LiveReg` by every transition of the restricted
system (the one in which a grace-timer stop only happens while its stream
is still the registered entry). -/
theorem liveReg_step {st st' : SysState} (hstep : Step true st st')
    (hinv : LiveReg st) : LiveReg st' := by
  cases hstep with
  | reuse i s hreg hs hrun =>
    intro j t hjt hlive
    have hilen : i < st.streams.length := by
      rw [List.getElem?_eq_some] at hs
      exact hs.1
    rw [List.getElem?_set] at hjt
    by_cases hij : i = j
    · subst hij
      rw [if_pos rfl, if_pos hilen, Option.some.injEq] at hjt
      subst hjt
      exact ⟨rfl, (cancelGrace_fields s).1.trans hrun⟩
    · rw [if_neg hij] at hjt
      have hj := hinv j t hjt hlive
      rw [hreg] at hj
      exact absurd (Option.some.inj hj.1) hij
  | spawnNew hreg =>
    intro j t hjt hlive
    by_cases hj : j < st.streams.length
    · rw [List.getElem?_append_left hj] at hjt
      have hr := hinv j t hjt hlive
      rw [hreg] at hr
      exact absurd hr.1 (by simp)
    · have hjlt : j < st.streams.length + 1 := by
        rw [List.getElem?_eq_some] at hjt
        have := hjt.1
        simpa using this
      have hjeq : j = st.streams.length := by omega
      subst hjeq
      rw [List.getElem?_concat_length, Option.some.injEq] at hjt
      subst hjt
      exact ⟨rfl, rfl⟩
  | spawnReplace i s hreg hs hrun =>
    intro j t hjt hlive
    have hilen : i < st.streams.length := by
      rw [List.getElem?_eq_some] at hs
      exact hs.1
    by_cases hj : j < st.streams.length
    · rw [List.getElem?_append_left (by rw [List.length_set]; exact hj)] at hjt
      rw [List.getElem?_set] at hjt
      by_cases hij : i = j
      · subst hij
        rw [if_pos rfl, if_pos hilen, Option.some.injEq] at hjt
        subst hjt
        rw [(cancelGrace_fields s).2.2.1] at hlive
        have := (hinv i s hs hlive).2
        rw [hrun] at this
        exact absurd this (by simp)
      · rw [if_neg hij] at hjt
        have hr := hinv j t hjt hlive
        rw [hreg] at hr
        exact absurd (Option.some.inj hr.1) hij
    · have hjlt : j < st.streams.length + 1 := by
        rw [List.getElem?_eq_some] at hjt
        have := hjt.1
        simpa using this
      have hjeq : j = st.streams.length := by omega
      subst hjeq
      have hlen2 : st.streams.length = (st.streams.set i (cancelGrace s)).length := by
        rw [List.length_set]
      rw [show ((st.streams.set i (cancelGrace s)) ++
            [freshStream])[st.streams.length]? =
          some freshStream from by rw [hlen2]; exact List.getElem?_concat_length _ _,
        Option.some.injEq] at hjt
      subst hjt
      exact ⟨rfl, rfl⟩
  | createFailNone hreg =>
    exact hinv
  | createFailSome i s hreg hs hrun =>
    intro j t hjt hlive
    have hilen : i < st.streams.length := by
      rw [List.getElem?_eq_some] at hs
      exact hs.1
    rw [List.getElem?_set] at hjt
    by_cases hij : i = j
    · subst hij
      rw [if_pos rfl, if_pos hilen, Option.some.injEq] at hjt
      subst hjt
      rw [(cancelGrace_fields s).2.2.1] at hlive
      have := (hinv i s hs hlive).2
      rw [hrun] at this
      exact absurd this (by simp)
    · rw [if_neg hij] at hjt
      have hr := hinv j t hjt hlive
      rw [hreg] at hr
      exact absurd (Option.some.inj hr.1) hij
  | addClient i s cid hs =>
    intro j t hjt hlive
    have hilen : i < st.streams.length := by
      rw [List.getElem?_eq_some] at hs
      exact hs.1
    rw [List.getElem?_set] at hjt
    by_cases hij : i = j
    · subst hij
      rw [if_pos rfl, if_pos hilen, Option.some.injEq] at hjt
      subst hjt
      exact hinv i s hs hlive
    · rw [if_neg hij] at hjt
      exact hinv j t hjt hlive
  | removeClient i s cid hs =>
    intro j t hjt hlive
    have hilen : i < st.streams.length := by
      rw [List.getElem?_eq_some] at hs
      exact hs.1
    rw [List.getElem?_set] at hjt
    by_cases hij : i = j
    · subst hij
      rw [if_pos rfl, if_pos hilen, Option.some.injEq] at hjt
      subst hjt
      rw [(removeClientStream_fields s cid).2] at hlive
      have hr := hinv i s hs hlive
      exact ⟨hr.1, (removeClientStream_fields s cid).1.trans hr.2⟩
    · rw [if_neg hij] at hjt
      exact hinv j t hjt hlive
  | procExit i s hs hlive0 =>
    intro j t hjt hlive
    have hilen : i < st.streams.length := by
      rw [List.getElem?_eq_some] at hs
      exact hs.1
    rw [List.getElem?_set] at hjt
    by_cases hij : i = j
    · subst hij
      rw [if_pos rfl, if_pos hilen, Option.some.injEq] at hjt
      subst hjt
      exact absurd hlive (by simp)
    · rw [if_neg hij] at hjt
      exact hinv j t hjt hlive
  | expire i s hs harm =>
    intro j t hjt hlive
    have hilen : i < st.streams.length := by
      rw [List.getElem?_eq_some] at hs
      exact hs.1
    rw [List.getElem?_set] at hjt
    by_cases hij : i = j
    · subst hij
      rw [if_pos rfl, if_pos hilen, Option.some.injEq] at hjt
      subst hjt
      exact hinv i s hs hlive
    · rw [if_neg hij] at hjt
      exact hinv j t hjt hlive
  | fireKeep i s hs hp hc =>
    intro j t hjt hlive
    have hilen : i < st.streams.length := by
      rw [List.getElem?_eq_some] at hs
      exact hs.1
    rw [List.getElem?_set] at hjt
    by_cases hij : i = j
    · subst hij
      rw [if_pos rfl, if_pos hilen, Option.some.injEq] at hjt
      subst hjt
      exact hinv i s hs hlive
    · rw [if_neg hij] at hjt
      exact hinv j t hjt hlive
  | fireStop i s hs hp hc hstrict =>
    intro j t hjt hlive
    have hilen : i < st.streams.length := by
      rw [List.getElem?_eq_some] at hs
      exact hs.1
    rw [List.getElem?_set] at hjt
    by_cases hij : i = j
    · subst hij
      rw [if_pos rfl, if_pos hilen, Option.some.injEq] at hjt
      subst hjt
      exact absurd hlive (by simp)
    · rw [if_neg hij] at hjt
      have hr := hinv j t hjt hlive
      rw [hstrict rfl] at hr
      exact absurd (Option.some.inj hr.1) hij

/-- Every state reachable in the restricted system satisfies `LiveReg`. -/
theorem liveReg_reachable (st : SysState) (h : Reachable true st) : LiveReg st := by
  induction h with
  | refl =>
    intro i s hs hlive
    simp [initState] at hs
  | tail hr hstep ih =>
    exact liveReg_step hstep ih

/-- The claimed single-flight invariant does hold for the restricted
system, in which a grace-timer stop only fires while its stream is still
the registered entry — i.e. the one change an identity check in
`removeStream` (or in the timer callback) would enforce. -/
theorem strict_single_flight (st : SysState) (h : Reachable true st) :
    SingleFlight st := by
  intro i j si sj hi hj hpi hpj
  have h1 := liveReg_reachable st h i si hi hpi
  have h2 := liveReg_reachable st h j sj hj hpj
  exact Option.some.inj (h1.1.symm.trans h2.1)

/-- Witness for the restricted invariant at the initial state. -/
theorem strict_single_flight_witness : SingleFlight initState :=
  strict_single_flight initState Relation.ReflTransGen.refl

end Radiko
